import Mathlib

/-!
Verification of the model-building core of `D_CPLEX_Solver.py`
(`robust_portfolio_optimisation` and `return_maximisation`).

The Python code assembles a linear program for robust multi-stage CVaR
portfolio optimisation: it enumerates variable names, bounds, an objective
vector and constraint rows, hands the problem to an external solver
(CPLEX or Gurobi), and extracts the optimal objective and the t=0 weights.

The shallow embedding below reproduces that assembly as pure functions:
floats become rationals, pandas dataframes become lists of rows, the
insertion-ordered `scenarios_dict` becomes an association list, and the
external solver is an abstract outcome fed to the post-solve extraction
code.  Python exceptions are modelled with `Except`.
-/

namespace RobustPortfolio

/-- Sense of a linear constraint: "L", "G", "E" in the CPLEX API. -/
inductive Sense where
  | le
  | ge
  | eq
deriving DecidableEq

/-- Direction of the objective. -/
inductive ObjSense where
  | minimize
  | maximize
deriving DecidableEq

/-- A variable bound: a finite rational, or `cplex.infinity`. -/
inductive Bound where
  | fin (q : ℚ)
  | inf
deriving DecidableEq

/-- One linear constraint row as registered with
`linear_constraints.add`: parallel variable-name / coefficient lists, a
sense, a right-hand side and a name. -/
structure Constr where
  name : String
  vars : List String
  coeffs : List ℚ
  sense : Sense
  rhs : ℚ
deriving DecidableEq

/-- The assembled problem: variables (parallel name/bound/objective
arrays) and constraint rows, exactly the data pushed into the
`cplex.Cplex()` object. -/
structure LPModel where
  objSense : ObjSense
  varNames : List String
  objCoeffs : List ℚ
  lowerBounds : List Bound
  upperBounds : List Bound
  constraints : List Constr
deriving DecidableEq

/-- One row of a scenario-tree dataframe.  The dataframe columns are
`node` (the path string), `probability`, one column per instrument (in
the order of the `instruments` list, `rets` here), and
`cum_probability` last; this is the layout assumed by the `.T[2:-1].T`
slice in the terminal-return constraints. -/
structure ScenNode where
  node : String
  probability : ℚ
  rets : List ℚ
  cum_probability : ℚ
deriving DecidableEq

/-- A scenario tree: the rows of one dataframe, in dataframe order. -/
abbrev ScenTree := List ScenNode

/-- `scenarios_dict`: a Python dict from tree identifier to tree,
modelled as an insertion-ordered association list.  Python dict keys are
unique; theorems that need uniqueness take a `Nodup` hypothesis. -/
abbrev ScenDict := List (String × ScenTree)

/-- Python `len(node)` on a path string. -/
def strLen (s : String) : ℕ := s.data.length

/-- Python `node[:-1]`: the path with its last character dropped. -/
def strInit (s : String) : String := ⟨s.data.dropLast⟩

/-- `scenarios_dict[scenario_names[0]]`: the first rival tree, from
which node sets are read (Python raises on an empty dict; the guard
lives in the top-level runner). -/
def firstTree (d : ScenDict) : ScenTree := ((d.head?).map Prod.snd).getD []

/-- `final_nodes`: nodes of the first tree whose path length equals
`nr_time_periods - 1 = len(branching)`. -/
def final_nodes (d : ScenDict) (branching : List ℕ) : List String :=
  ((firstTree d).filter (fun nd => strLen nd.node == branching.length)).map ScenNode.node

/-- `internal_nodes`: nodes of the first tree with strictly shorter
paths. -/
def internal_nodes (d : ScenDict) (branching : List ℕ) : List String :=
  ((firstTree d).filter (fun nd => decide (strLen nd.node < branching.length))).map ScenNode.node

/-- `float(tree[tree['node'] == node][instrument])`, with the instrument
column addressed by its index `j` in the `instruments` list.  Python
raises when the row is missing; the embedding totalises with 0. -/
def retLookup (tk : ScenTree) (node : String) (j : ℕ) : ℚ :=
  match tk.find? (fun nd => nd.node == node) with
  | some nd => nd.rets.getD j 0
  | none => 0

/-! ### Variable declaration (lines 54-97) -/

/-- `var = ['var_' + str(k) for k in scenarios_dict.keys()]` -/
def var (d : ScenDict) : List String := d.map (fun p => "var_" ++ p.1)

/-- `w0_asset_weights` -/
def w0_asset_weights (instruments : List String) : List String :=
  instruments.map (fun j => "w_0_" ++ j)

/-- `w0_asset_buys` -/
def w0_asset_buys (instruments : List String) : List String :=
  instruments.map (fun j => "b_0_" ++ j)

/-- `w0_asset_sells` -/
def w0_asset_sells (instruments : List String) : List String :=
  instruments.map (fun j => "s_0_" ++ j)

/-- `z = ["z_k"+k+"_s"+s for k in keys for s in final_nodes]` -/
def zList (d : ScenDict) (branching : List ℕ) : List String :=
  d.flatMap (fun p => (final_nodes d branching).map (fun s => "z_k" ++ p.1 ++ "_s" ++ s))

/-- `asset_weights` over trees, instruments and internal nodes. -/
def asset_weights (d : ScenDict) (instruments : List String) (branching : List ℕ) : List String :=
  d.flatMap (fun p => instruments.flatMap (fun i =>
    (internal_nodes d branching).map (fun s => "w_k" ++ p.1 ++ "_" ++ i ++ "_s" ++ s)))

/-- `asset_buys` -/
def asset_buys (d : ScenDict) (instruments : List String) (branching : List ℕ) : List String :=
  d.flatMap (fun p => instruments.flatMap (fun i =>
    (internal_nodes d branching).map (fun s => "b_k" ++ p.1 ++ "_" ++ i ++ "_s" ++ s)))

/-- `asset_sells` -/
def asset_sells (d : ScenDict) (instruments : List String) (branching : List ℕ) : List String :=
  d.flatMap (fun p => instruments.flatMap (fun i =>
    (internal_nodes d branching).map (fun s => "s_k" ++ p.1 ++ "_" ++ i ++ "_s" ++ s)))

/-- `all_variables` (line 71): wcvar, var, z, weights, buys, sells. -/
def all_variables (d : ScenDict) (instruments : List String) (branching : List ℕ) : List String :=
  "wcvar" :: (var d ++ zList d branching
    ++ w0_asset_weights instruments ++ asset_weights d instruments branching
    ++ w0_asset_buys instruments ++ asset_buys d instruments branching
    ++ w0_asset_sells instruments ++ asset_sells d instruments branching)

/-- `all_lower_bounds` (line 84): wcvar 0, var 0, z 0, then the lower
ends of the weight/buy/sell bound parameters repeated. -/
def all_lower_bounds (d : ScenDict) (instruments : List String) (branching : List ℕ)
    (sell_bounds buy_bounds weight_bounds : ℚ × ℚ) : List Bound :=
  [Bound.fin 0]
  ++ List.replicate (var d).length (Bound.fin 0)
  ++ List.replicate (zList d branching).length (Bound.fin 0)
  ++ List.replicate ((w0_asset_weights instruments).length
      + (asset_weights d instruments branching).length) (Bound.fin weight_bounds.1)
  ++ List.replicate ((w0_asset_buys instruments).length
      + (asset_buys d instruments branching).length) (Bound.fin buy_bounds.1)
  ++ List.replicate ((w0_asset_sells instruments).length
      + (asset_sells d instruments branching).length) (Bound.fin sell_bounds.1)

/-- `all_upper_bounds` (line 86): wcvar `cplex.infinity`, var and z
`1e20`, then the upper ends of the bound parameters repeated. -/
def all_upper_bounds (d : ScenDict) (instruments : List String) (branching : List ℕ)
    (sell_bounds buy_bounds weight_bounds : ℚ × ℚ) : List Bound :=
  [Bound.inf]
  ++ List.replicate (var d).length (Bound.fin ((10:ℚ)^20))
  ++ List.replicate (zList d branching).length (Bound.fin ((10:ℚ)^20))
  ++ List.replicate ((w0_asset_weights instruments).length
      + (asset_weights d instruments branching).length) (Bound.fin weight_bounds.2)
  ++ List.replicate ((w0_asset_buys instruments).length
      + (asset_buys d instruments branching).length) (Bound.fin buy_bounds.2)
  ++ List.replicate ((w0_asset_sells instruments).length
      + (asset_sells d instruments branching).length) (Bound.fin sell_bounds.2)

/-- `objective_function = [1.0, *np.repeat(0.0, len(all_variables)-1)]` -/
def objective_function (n : ℕ) : List ℚ := 1 :: List.replicate (n - 1) 0

/-! ### Constraint rows (lines 101-249) -/

/-- One period-t=0 weight row (lines 104-115):
`w_0_i - (1-cost_to_buy)*b_0_i + (1+cost_to_sell)*s_0_i = initial_portfolio[j]`.
Python indexes `initial_portfolio[j]`; the embedding totalises with 0. -/
def t0_weight_row (i : String) (j : ℕ) (initial_portfolio : List ℚ)
    (cost_to_buy cost_to_sell : ℚ) : Constr :=
  { name := "w_0_" ++ i
    vars := ["w_0_" ++ i, "b_0_" ++ i, "s_0_" ++ i]
    coeffs := [1, -(1 - cost_to_buy), 1 + cost_to_sell]
    sense := .eq
    rhs := initial_portfolio.getD j 0 }

/-- All period-t=0 weight rows, one per instrument. -/
def t0_weight_rows (instruments : List String) (initial_portfolio : List ℚ)
    (cost_to_buy cost_to_sell : ℚ) : List Constr :=
  instruments.enum.map (fun p => t0_weight_row p.2 p.1 initial_portfolio cost_to_buy cost_to_sell)

/-- The single t=0 balance constraint (lines 117-125): buys with
coefficient +1, sells with coefficient -1, equality, right-hand side
`1 - sum(initial_portfolio)`. -/
def w0_balance_row (instruments : List String) (initial_portfolio : List ℚ) : Constr :=
  { name := "w_0_balance_constraint"
    vars := w0_asset_buys instruments ++ w0_asset_sells instruments
    coeffs := List.replicate instruments.length 1 ++ List.replicate instruments.length (-1)
    sense := .eq
    rhs := 1 - initial_portfolio.sum }

/-- One intermediate-period transaction row (lines 130-162) for tree
`k`, instrument `i` (index `j`) and internal node `node`:
`ret*w_prev + (1-cost_to_buy)*b - (1+cost_to_sell)*s - w_cur = 0`,
where `ret` is the realized return of instrument `i` at `node` in tree
`k` and `w_prev` is the t=0 weight when the node path has length 1. -/
def intermediate_row (k : String) (tk : ScenTree) (i : String) (j : ℕ) (node : String)
    (cost_to_buy cost_to_sell : ℚ) : Constr :=
  { name := "w_k" ++ k ++ "_" ++ i ++ "_s" ++ node ++ "_return_constraint"
    vars := [(if strLen node == 1 then "w_0_" ++ i
              else "w_k" ++ k ++ "_" ++ i ++ "_s" ++ strInit node),
             "b_k" ++ k ++ "_" ++ i ++ "_s" ++ node,
             "s_k" ++ k ++ "_" ++ i ++ "_s" ++ node,
             "w_k" ++ k ++ "_" ++ i ++ "_s" ++ node]
    coeffs := [retLookup tk node j, 1 - cost_to_buy, -(1 + cost_to_sell), -1]
    sense := .eq
    rhs := 0 }

/-- All intermediate transaction rows: trees, then instruments, then
internal nodes. -/
def intermediate_rows (d : ScenDict) (instruments : List String) (branching : List ℕ)
    (cost_to_buy cost_to_sell : ℚ) : List Constr :=
  d.flatMap (fun p => instruments.enum.flatMap (fun q =>
    (internal_nodes d branching).map (fun node =>
      intermediate_row p.1 p.2 q.2 q.1 node cost_to_buy cost_to_sell)))

/-- One buy-sell balance row (lines 164-177) for tree `k` and internal
node `node`: buys +1, sells -1, equality, right-hand side 0. -/
def balance_row (k : String) (instruments : List String) (node : String) : Constr :=
  { name := "k" ++ k ++ "_s" ++ node ++ "_balance_constraint"
    vars := instruments.map (fun i => "b_k" ++ k ++ "_" ++ i ++ "_s" ++ node)
            ++ instruments.map (fun i => "s_k" ++ k ++ "_" ++ i ++ "_s" ++ node)
    coeffs := List.replicate instruments.length 1 ++ List.replicate instruments.length (-1)
    sense := .eq
    rhs := 0 }

/-- All buy-sell balance rows. -/
def balance_rows (d : ScenDict) (instruments : List String) (branching : List ℕ) : List Constr :=
  d.flatMap (fun p => (internal_nodes d branching).map (balance_row p.1 instruments))

/-- One WCVAR row (lines 179-192) for tree `k`: variables
`[wcvar, var_k, z_k_s...]` with coefficients
`[1, -1, cum_probability * (-1/(1-beta)) ...]`, sense "G", rhs 0.
The z coefficients come from the rows of tree `k` whose node is in
`final_nodes` (taken from the first tree), in tree-`k` row order. -/
def wcvar_row (k : String) (tk : ScenTree) (fns : List String) (beta : ℚ) : Constr :=
  { name := "k" ++ k ++ "_wcvar_constraint"
    vars := "wcvar" :: ("var_" ++ k) :: fns.map (fun node => "z_k" ++ k ++ "_s" ++ node)
    coeffs := 1 :: (-1) :: (tk.filter (fun nd => fns.contains nd.node)).map
        (fun nd => nd.cum_probability * (-1 / (1 - beta)))
    sense := .ge
    rhs := 0 }

/-- All WCVAR rows, one per tree. -/
def wcvar_rows (d : ScenDict) (branching : List ℕ) (beta : ℚ) : List Constr :=
  d.map (fun p => wcvar_row p.1 p.2 (final_nodes d branching) beta)

/-- One z (CVaR) row (lines 194-215) for tree `k` and final node
`node`: `z + sum_i ret_i*initial_wealth * w_parent_i + var_k >= initial_wealth`,
where the parent weight names use `node[:-1]`. -/
def z_row (k : String) (tk : ScenTree) (instruments : List String) (node : String)
    (initial_wealth : ℚ) : Constr :=
  { name := "z_k" ++ k ++ "_s" ++ node ++ "_constraint"
    vars := ("z_k" ++ k ++ "_s" ++ node)
            :: (instruments.map (fun i => "w_k" ++ k ++ "_" ++ i ++ "_s" ++ strInit node)
                ++ ["var_" ++ k])
    coeffs := 1 :: (instruments.enum.map (fun q => retLookup tk node q.1 * initial_wealth)
                ++ [1])
    sense := .ge
    rhs := initial_wealth }

/-- All z rows: trees, then final nodes. -/
def z_rows (d : ScenDict) (instruments : List String) (branching : List ℕ)
    (initial_wealth : ℚ) : List Constr :=
  d.flatMap (fun p => (final_nodes d branching).map (fun node =>
    z_row p.1 p.2 instruments node initial_wealth))

/-! ### Terminal-return rows and the pandas groupby (lines 217-249) -/

/-- A boolean strict order on strings by character codes, used to mirror
the (sorted) pandas `groupby` key order; structural so that it
evaluates in the kernel. -/
def charListLt : List Char → List Char → Bool
  | [], [] => false
  | [], _ :: _ => true
  | _ :: _, [] => false
  | a :: as, b :: bs =>
      if a.val < b.val then true else if b.val < a.val then false else charListLt as bs

/-- Insert a string into a sorted list. -/
def insertSorted (x : String) : List String → List String
  | [] => [x]
  | y :: ys => if charListLt y.data x.data then y :: insertSorted x ys else x :: y :: ys

/-- Sort strings ascending (pandas `groupby` sorts its keys). -/
def sortStrings (l : List String) : List String := l.foldr insertSorted []

/-- `data_df.groupby(['variables'])['values'].sum()`: the distinct
variable names in ascending order, each with the sum of its values. -/
def groupbySum (pairs : List (String × ℚ)) : List (String × ℚ) :=
  (sortStrings (pairs.map Prod.fst).dedup).map
    (fun key => (key, ((pairs.filter (fun p => p.1 == key)).map Prod.snd).sum))

/-- The flattened (variable, value) pairs of the terminal-return
constraint of tree `k` (lines 227-235): for each final node, the parent
weight variables paired with `ret * cum_probability`.  Python errors on
a missing row; the embedding yields no pairs. -/
def terminal_pairs (k : String) (tk : ScenTree) (instruments : List String)
    (fns : List String) : List (String × ℚ) :=
  fns.flatMap (fun node =>
    List.zip (instruments.map (fun i => "w_k" ++ k ++ "_" ++ i ++ "_s" ++ strInit node))
      (((tk.find? (fun nd => nd.node == node)).map
          (fun nd => nd.rets.map (fun r => r * nd.cum_probability))).getD []))

/-- The terminal-return row of tree `k` (lines 237-249): grouped
variables and summed coefficients, sense "G", rhs `return_target`. -/
def terminal_return_row (k : String) (tk : ScenTree) (instruments : List String)
    (fns : List String) (return_target : ℚ) : Constr :=
  { name := "k" ++ k ++ "_return_constraint"
    vars := (groupbySum (terminal_pairs k tk instruments fns)).map Prod.fst
    coeffs := (groupbySum (terminal_pairs k tk instruments fns)).map Prod.snd
    sense := .ge
    rhs := return_target }

/-- Terminal-return rows: emitted only when `wcvar_minimizer == 'no'`
(line 218). -/
def terminal_return_rows (d : ScenDict) (instruments : List String) (branching : List ℕ)
    (return_target : ℚ) (wcvar_minimizer : String) : List Constr :=
  if wcvar_minimizer == "no" then
    d.map (fun p => terminal_return_row p.1 p.2 instruments (final_nodes d branching) return_target)
  else []

/-- The complete assembled problem of `robust_portfolio_optimisation`
(lines 40-249): minimisation, the declared variables with their bounds
and objective, and the constraint sections in emission order. -/
def robustModel (d : ScenDict) (instruments : List String) (branching : List ℕ)
    (initial_portfolio : List ℚ) (sell_bounds buy_bounds weight_bounds : ℚ × ℚ)
    (cost_to_buy cost_to_sell beta initial_wealth return_target : ℚ)
    (wcvar_minimizer : String) : LPModel :=
  { objSense := .minimize
    varNames := all_variables d instruments branching
    objCoeffs := objective_function (all_variables d instruments branching).length
    lowerBounds := all_lower_bounds d instruments branching sell_bounds buy_bounds weight_bounds
    upperBounds := all_upper_bounds d instruments branching sell_bounds buy_bounds weight_bounds
    constraints :=
      t0_weight_rows instruments initial_portfolio cost_to_buy cost_to_sell
      ++ [w0_balance_row instruments initial_portfolio]
      ++ intermediate_rows d instruments branching cost_to_buy cost_to_sell
      ++ balance_rows d instruments branching
      ++ wcvar_rows d branching beta
      ++ z_rows d instruments branching initial_wealth
      ++ terminal_return_rows d instruments branching return_target wcvar_minimizer }

/-! ### The model assembled inside `return_maximisation` (lines 374-557)

`return_maximisation` runs one maximisation per scenario over a
singleton dict; the body assembles this model for the given `data`
dict: an `opt_return` variable maximised as the objective, the same
t=0 / intermediate / balance rows, and per-tree rows
`opt_return - sum(grouped terminal return) <= 0`. -/

/-- `all_variables` of `return_maximisation` (line 423). -/
def rm_all_variables (data : ScenDict) (instruments : List String) (branching : List ℕ) : List String :=
  "opt_return" :: (w0_asset_weights instruments ++ asset_weights data instruments branching
    ++ w0_asset_buys instruments ++ asset_buys data instruments branching
    ++ w0_asset_sells instruments ++ asset_sells data instruments branching)

/-- The per-tree return row of `return_maximisation` (lines 530-557):
`[opt_return, grouped vars]` with coefficients `[1, -grouped values]`,
sense "L", rhs 0. -/
def rm_return_row (k : String) (tk : ScenTree) (instruments : List String)
    (fns : List String) : Constr :=
  { name := "k" ++ k ++ "_return_constraint"
    vars := "opt_return" :: (groupbySum (terminal_pairs k tk instruments fns)).map Prod.fst
    coeffs := 1 :: ((groupbySum (terminal_pairs k tk instruments fns)).map Prod.snd).map Neg.neg
    sense := .le
    rhs := 0 }

/-- The model assembled by one iteration of `return_maximisation`. -/
def return_maximisation_model (data : ScenDict) (instruments : List String) (branching : List ℕ)
    (initial_portfolio : List ℚ) (sell_bounds buy_bounds weight_bounds : ℚ × ℚ)
    (cost_to_buy cost_to_sell : ℚ) : LPModel :=
  { objSense := .maximize
    varNames := rm_all_variables data instruments branching
    objCoeffs := objective_function (rm_all_variables data instruments branching).length
    lowerBounds := [Bound.fin 0]
      ++ List.replicate ((w0_asset_weights instruments).length
          + (asset_weights data instruments branching).length) (Bound.fin weight_bounds.1)
      ++ List.replicate ((w0_asset_buys instruments).length
          + (asset_buys data instruments branching).length) (Bound.fin buy_bounds.1)
      ++ List.replicate ((w0_asset_sells instruments).length
          + (asset_sells data instruments branching).length) (Bound.fin sell_bounds.1)
    upperBounds := [Bound.inf]
      ++ List.replicate ((w0_asset_weights instruments).length
          + (asset_weights data instruments branching).length) (Bound.fin weight_bounds.2)
      ++ List.replicate ((w0_asset_buys instruments).length
          + (asset_buys data instruments branching).length) (Bound.fin buy_bounds.2)
      ++ List.replicate ((w0_asset_sells instruments).length
          + (asset_sells data instruments branching).length) (Bound.fin sell_bounds.2)
    constraints :=
      t0_weight_rows instruments initial_portfolio cost_to_buy cost_to_sell
      ++ [w0_balance_row instruments initial_portfolio]
      ++ intermediate_rows data instruments branching cost_to_buy cost_to_sell
      ++ balance_rows data instruments branching
      ++ data.map (fun p => rm_return_row p.1 p.2 instruments (final_nodes data branching)) }

/-! ### Solver dispatch and result extraction (lines 251-371)

The external solvers are abstracted by their reported outcomes; the
code below mirrors the Python control flow that consumes them.
Python exceptions (CPLEX access to a non-existent solution, `.index` on
a missing name, `max()` on an empty dict, `NameError` on an unknown
solver string) are modelled as `Except.error`. -/

/-- Outcome reported by the Gurobi backend: `presolved_lp.Status ==
GRB.OPTIMAL` together with the presolved model's named variable values,
or not optimal. -/
inductive GurobiOutcome where
  | optimal (objVal : ℚ) (vars : List (String × ℚ))
  | notOptimal
deriving DecidableEq

/-- Outcome reported by the CPLEX backend:
`solution.is_primal_feasible()` with the objective value and the
solution values aligned with the declared variable names, or
infeasible. -/
inductive CplexOutcome where
  | feasible (objVal : ℚ) (values : List ℚ)
  | infeasible
deriving DecidableEq

/-- The value returned by `robust_portfolio_optimisation`: either the
3-tuple `(objective_value, w_0_variables, w_0_values)` or the dict
`{'wcvar', 'return', 'w_0_variables', 'w_0_values'}`.  `none` models
the `np.nan` sentinel. -/
inductive RPOValue where
  | tup (objective : Option ℚ) (w0_variables : Option (List String)) (w0_values : Option (List ℚ))
  | dict (wcvar : Option ℚ) (ret : ℚ) (w0_variables : Option (List String)) (w0_values : Option (List ℚ))
deriving DecidableEq

/-- Python `x.VarName.find('w_0') != -1`: substring containment. -/
def strContains (s pat : String) : Bool :=
  (List.range (s.data.length + 1)).any (fun i => pat.data.isPrefixOf (s.data.drop i))

/-- `names.index(v)`: position of a name, raising `ValueError` when
absent. -/
def namesIndex (names : List String) (v : String) : Except String ℕ :=
  match names.indexOf? v with
  | some i => .ok i
  | none => .error ("ValueError: " ++ v ++ " is not in list")

/-- `[solution.get_values()[names.index(v)] for v in vs]`. -/
def solValues (names : List String) (values : List ℚ) (vs : List String) :
    Except String (List ℚ) :=
  vs.mapM (fun v => (namesIndex names v).map (fun i => values.getD i 0))

/-- `wcvar_dict[k]` (lines 296-310): minus the dot product of
`[-1, cum_probability * (-1/(1-beta)) ...]` with the solution values of
`[var_k, z_k_s...]`. -/
def wcvarDictEntry (names : List String) (values : List ℚ) (k : String) (tk : ScenTree)
    (fns : List String) (beta : ℚ) : Except String ℚ :=
  let cvars := ("var_" ++ k) :: fns.map (fun node => "z_k" ++ k ++ "_s" ++ node)
  let params : List ℚ := (-1) :: (tk.filter (fun nd => fns.contains nd.node)).map
      (fun nd => nd.cum_probability * (-1 / (1 - beta)))
  (solValues names values cvars).map
    (fun vals => -(List.sum (List.zipWith (fun a b => a * b) params vals)))

/-- `max(wcvar_dict, key=wcvar_dict.get)`: the first key attaining the
maximum value, scanning in insertion order. -/
def argmaxFirst : List (String × ℚ) → Option String
  | [] => none
  | p :: rest =>
      some ((rest.foldl (fun best q => if q.2 > best.2 then q else best) p).1)

/-- The `wcvar_minimizer == 'yes'` block of the CPLEX branch (lines
291-360), given a primal-feasible solution: build `wcvar_dict`, pick
the worst scenario, recompute its grouped terminal return from the
solution values, and return the result dict.  A failing name lookup
(`.index` on a missing name) or an empty dict propagate as the Python
exceptions they raise. -/
def wcvarMinimizerBlock (d : ScenDict) (instruments : List String) (fns : List String)
    (beta : ℚ) (names : List String) (values : List ℚ) (objective_value : ℚ)
    (w0w : List String) (w0vals : List ℚ) : Except String RPOValue :=
  match d.mapM (fun p =>
    (wcvarDictEntry names values p.1 p.2 fns beta).map (fun x => (p.1, x))) with
  | .error e => .error e
  | .ok entries =>
    match argmaxFirst entries with
    | none => .error "ValueError: max() arg is an empty sequence"
    | some kstar =>
      match solValues names values
        ((groupbySum (terminal_pairs kstar
          (((d.find? (fun p => p.1 == kstar)).map Prod.snd).getD [])
          instruments fns)).map Prod.fst) with
      | .error e => .error e
      | .ok vals =>
        .ok (.dict (some objective_value)
          (List.sum (List.zipWith (fun a b => a * b)
            ((groupbySum (terminal_pairs kstar
              (((d.find? (fun p => p.1 == kstar)).map Prod.snd).getD [])
              instruments fns)).map Prod.snd) vals))
          (some w0w) (some w0vals))

/-- The value computed (or exception raised) by
`robust_portfolio_optimisation` after assembling the model, as a
function of the configured solver string and the backend outcomes.
An empty `scenarios_dict` raises already at line 50. -/
def rpoResult (d : ScenDict) (instruments : List String) (branching : List ℕ)
    (initial_portfolio : List ℚ) (sell_bounds buy_bounds weight_bounds : ℚ × ℚ)
    (cost_to_buy cost_to_sell beta initial_wealth return_target : ℚ)
    (solver wcvar_minimizer : String)
    (gOut : GurobiOutcome) (cOut : CplexOutcome) : Except String RPOValue :=
  if d.isEmpty then .error "IndexError: list index out of range"
  else if solver == "gurobi" then
    match gOut with
    | .optimal obj vars =>
        .ok (.tup (some obj)
          (some ((vars.filter (fun p => strContains p.1 "w_0")).map Prod.fst))
          (some ((vars.filter (fun p => strContains p.1 "w_0")).map Prod.snd)))
    | .notOptimal => .ok (.tup none none none)
  else if solver == "cplex" then
    match cOut with
    | .feasible obj values =>
      match solValues (all_variables d instruments branching) values
          (w0_asset_weights instruments) with
      | .error e => .error e
      | .ok w0vals =>
        if wcvar_minimizer == "yes" then
          wcvarMinimizerBlock d instruments (final_nodes d branching) beta
            (all_variables d instruments branching) values obj
            (w0_asset_weights instruments) w0vals
        else .ok (.tup (some obj) (some (w0_asset_weights instruments)) (some w0vals))
    | .infeasible =>
        if wcvar_minimizer == "yes" then
          -- solution.get_values() is reached with no solution available
          .error "CplexError: CPLEX Error  1217: No solution exists."
        else .ok (.tup none none none)
  else .error "NameError: name objective_value is not defined"

/-- The diagnostic lines printed on the way (interpolated progress
messages of the feasible minimizer block are omitted). -/
def rpoPrinted (d : ScenDict) (solver wcvar_minimizer : String)
    (gOut : GurobiOutcome) (cOut : CplexOutcome) : List String :=
  if d.isEmpty then []
  else
    ["Specifying objective function.",
     "Adding period t=0 constraints.",
     "Adding period t=1, ..., T-1 constraints (intermediate nodes).",
     "Adding WCVAR constraints.",
     "Adding z (CVaR) constraints."]
    ++ (if wcvar_minimizer == "no" then ["Adding period t = T return constraints."] else [])
    ++ (if solver == "gurobi" then
          match gOut with
          | .optimal _ _ => []
          | .notOptimal => ["Not primal feasible."]
        else if solver == "cplex" then
          (match cOut with
           | .feasible _ _ => []
           | .infeasible => ["Not primal feasible."])
          ++ (if wcvar_minimizer == "yes" then
                ["Finding the scenario with maximum CVaR (solution to the min-max problem)."]
              else [])
        else [])

/-- Result value (or exception) together with the printed diagnostics. -/
structure RunResult where
  result : Except String RPOValue
  printed : List String

/-- `robust_portfolio_optimisation` end to end: assemble the model,
dispatch to the configured backend, extract the result. -/
def robust_portfolio_optimisation (d : ScenDict) (instruments : List String)
    (branching : List ℕ) (initial_portfolio : List ℚ)
    (sell_bounds buy_bounds weight_bounds : ℚ × ℚ)
    (cost_to_buy cost_to_sell beta initial_wealth return_target : ℚ)
    (solver wcvar_minimizer : String)
    (gOut : GurobiOutcome) (cOut : CplexOutcome) : RunResult :=
  { result := rpoResult d instruments branching initial_portfolio sell_bounds buy_bounds
      weight_bounds cost_to_buy cost_to_sell beta initial_wealth return_target
      solver wcvar_minimizer gOut cOut
    printed := rpoPrinted d solver wcvar_minimizer gOut cOut }

/-! ### Concrete example data

Two rival trees over two instruments with branching `[2, 2]` (two time
periods after t=0): one internal node "1" and final nodes "11", "12",
mirroring the path-string layout produced by the simulator. -/

/-- First rival tree. -/
def exTree1 : ScenTree :=
  [⟨"1", 1, [21/20, 1], 1⟩,
   ⟨"11", 1/2, [11/10, 1], 1/2⟩,
   ⟨"12", 1/2, [9/10, 1], 1/2⟩]

/-- Second rival tree (same node set, different returns). -/
def exTree2 : ScenTree :=
  [⟨"1", 1, [1, 102/100], 1⟩,
   ⟨"11", 1/2, [1, 105/100], 1/2⟩,
   ⟨"12", 1/2, [1, 95/100], 1/2⟩]

/-- Example `scenarios_dict` with keys "1" and "2". -/
def exDict : ScenDict := [("1", exTree1), ("2", exTree2)]

/-- A one-node scenario dict whose single (final) node "11" has no
parent in the tree: a counterexample input for C9. -/
def exDictShallow : ScenDict := [("1", [⟨"11", 1, [1], 1⟩])]

/-- Example instrument list. -/
def exInstr : List String := ["A", "B"]

/-- Example branching structure (only its length matters). -/
def exBranching : List ℕ := [2, 2]

/-- Example initial portfolio summing to 1. -/
def exPortfolio : List ℚ := [1/2, 1/2]

/-- Example bound parameters. -/
def exSell : ℚ × ℚ := (0, 1/5)

/-- Example bound parameters. -/
def exBuy : ℚ × ℚ := (0, 1/5)

/-- Example bound parameters. -/
def exWeight : ℚ × ℚ := (0, 1)

/-- The example model in CVaR-threshold mode (`wcvar_minimizer = 'no'`),
with `cost_to_buy = cost_to_sell = 1/100`, `beta = 1/2`,
`initial_wealth = 1`, `return_target = 27/25`. -/
def exModelNo : LPModel :=
  robustModel exDict exInstr exBranching exPortfolio exSell exBuy exWeight
    (1/100) (1/100) (1/2) 1 (27/25) "no"

/-- The example model with an initial portfolio summing to 3/4. -/
def exModelFrac : LPModel :=
  robustModel exDict exInstr exBranching [1/2, 1/4] exSell exBuy exWeight
    (1/100) (1/100) (1/2) 1 (27/25) "no"

/-- The example model in minimisation mode (`wcvar_minimizer = 'yes'`). -/
def exModelYes : LPModel :=
  robustModel exDict exInstr exBranching exPortfolio exSell exBuy exWeight
    (1/100) (1/100) (1/2) 1 (27/25) "yes"


/-! ### String name disjointness helpers -/

/-- Strings with equal character lists are equal. -/
lemma string_eq_of_data {a b : String} (h : a.data = b.data) : a = b := by
  cases a; cases b; exact congrArg String.mk h

/-- The character list of an appended string. -/
lemma str_data_append (a b : String) : (a ++ b).data = a.data ++ b.data := by
  cases a; cases b; rfl

/-- String append is associative. -/
lemma str_append_assoc (a b c : String) : (a ++ b) ++ c = a ++ (b ++ c) := by
  apply string_eq_of_data
  simp [str_data_append]

/-- Appended strings with different characters at position `i` of their
left parts are different. -/
lemma ne_of_get (p q s t : String) (i : ℕ) (hp : i < p.data.length) (hq : i < q.data.length)
    (h : p.data[i]? ≠ q.data[i]?) : p ++ s ≠ q ++ t := by
  intro he
  apply h
  have hd : (p ++ s).data = (q ++ t).data := congrArg String.data he
  rw [str_data_append, str_data_append] at hd
  calc p.data[i]? = (p.data ++ s.data)[i]? := (List.getElem?_append_left hp).symm
    _ = (q.data ++ t.data)[i]? := by rw [hd]
    _ = q.data[i]? := List.getElem?_append_left hq

/-- Appended strings whose right parts differ at position `i` from the
end are different. -/
lemma ne_of_rev_get (s t a b : String) (i : ℕ) (hs : i < s.data.length) (ht : i < t.data.length)
    (h : s.data.reverse[i]? ≠ t.data.reverse[i]?) : a ++ s ≠ b ++ t := by
  intro he
  apply h
  have hd : (a ++ s).data.reverse = (b ++ t).data.reverse := by rw [he]
  rw [str_data_append, str_data_append, List.reverse_append, List.reverse_append] at hd
  have hs' : i < s.data.reverse.length := by simpa using hs
  have ht' : i < t.data.reverse.length := by simpa using ht
  calc s.data.reverse[i]? = (s.data.reverse ++ a.data.reverse)[i]? :=
        (List.getElem?_append_left hs').symm
    _ = (t.data.reverse ++ b.data.reverse)[i]? := by rw [hd]
    _ = t.data.reverse[i]? := List.getElem?_append_left ht'

/-- Appending the empty string is the identity. -/
lemma str_append_empty (a : String) : a ++ "" = a := by
  apply string_eq_of_data
  simp [str_data_append]

/-- Variant of `ne_of_get` against a plain string. -/
lemma ne_of_get_lit (p t s : String) (i : ℕ) (hp : i < p.data.length) (ht : i < t.data.length)
    (h : p.data[i]? ≠ t.data[i]?) : p ++ s ≠ t := by
  intro he
  exact ne_of_get p t s "" i hp ht h (by rw [str_append_empty]; exact he)

/-- Prepending the empty string is the identity. -/
lemma str_empty_append (a : String) : "" ++ a = a := by
  apply string_eq_of_data
  simp [str_data_append]

/-- Variant of `ne_of_rev_get` against a plain string. -/
lemma ne_of_rev_get_lit (s t a : String) (i : ℕ) (hs : i < s.data.length) (ht : i < t.data.length)
    (h : s.data.reverse[i]? ≠ t.data.reverse[i]?) : a ++ s ≠ t := by
  intro he
  exact ne_of_rev_get s t a "" i hs ht h (by rw [str_empty_append]; exact he)

/-- Right-cancellation for string append. -/
lemma str_append_right_cancel {a b s : String} (h : a ++ s = b ++ s) : a = b := by
  apply string_eq_of_data
  have hd := congrArg String.data h
  rw [str_data_append, str_data_append] at hd
  exact List.append_cancel_right hd

/-- Left-cancellation for string append. -/
lemma str_append_left_cancel {a s t : String} (h : a ++ s = a ++ t) : s = t := by
  apply string_eq_of_data
  have hd := congrArg String.data h
  rw [str_data_append, str_data_append] at hd
  exact List.append_cancel_left hd

/-- Constraint names of the form `pre ++ k ++ suf` determine `k`. -/
lemma key_name_inj {pre suf k k' : String} (h : pre ++ k ++ suf = pre ++ k' ++ suf) : k = k' :=
  str_append_left_cancel (str_append_right_cancel h)

section NameCount

variable (d : ScenDict) (instruments : List String) (branching : List ℕ)
  (initial_portfolio : List ℚ) (cost_to_buy cost_to_sell beta initial_wealth return_target : ℚ)

/-- The second component of an `enum` entry is a list member. -/
lemma snd_mem_of_enum {α : Type} {l : List α} {p : ℕ × α} (h : p ∈ l.enum) : p.2 ∈ l := by
  have h2 := List.mem_enum_iff_getElem?.mp h
  rw [List.getElem?_eq_some] at h2
  obtain ⟨hj, he⟩ := h2
  have h3 := List.getElem_mem hj
  rw [he] at h3
  exact h3

/-- t=0 weight rows never carry a name that every `"w_0_" ++ i` avoids. -/
lemma countP_t0_eq_zero (target : String)
    (h : ∀ i ∈ instruments, "w_0_" ++ i ≠ target) :
    (t0_weight_rows instruments initial_portfolio cost_to_buy cost_to_sell).countP
      (fun c => c.name == target) = 0 := by
  apply List.countP_eq_zero.mpr
  intro c hc
  obtain ⟨q, hq, rfl⟩ := List.mem_map.mp hc
  simpa [t0_weight_rows, t0_weight_row] using h q.2 (snd_mem_of_enum hq)

/-- Intermediate transaction rows never carry such a name. -/
lemma countP_intermediate_eq_zero (target : String)
    (h : ∀ k i nd, "w_k" ++ k ++ "_" ++ i ++ "_s" ++ nd ++ "_return_constraint" ≠ target) :
    (intermediate_rows d instruments branching cost_to_buy cost_to_sell).countP
      (fun c => c.name == target) = 0 := by
  apply List.countP_eq_zero.mpr
  intro c hc
  obtain ⟨p, hp, hc2⟩ := List.mem_flatMap.mp hc
  obtain ⟨q, hq, hc3⟩ := List.mem_flatMap.mp hc2
  obtain ⟨nd, hnd, rfl⟩ := List.mem_map.mp hc3
  simpa [intermediate_row] using h p.1 q.2 nd

/-- Balance rows never carry such a name. -/
lemma countP_balance_eq_zero (target : String)
    (h : ∀ k nd, "k" ++ k ++ "_s" ++ nd ++ "_balance_constraint" ≠ target) :
    (balance_rows d instruments branching).countP (fun c => c.name == target) = 0 := by
  apply List.countP_eq_zero.mpr
  intro c hc
  obtain ⟨p, hp, hc2⟩ := List.mem_flatMap.mp hc
  obtain ⟨nd, hnd, rfl⟩ := List.mem_map.mp hc2
  simpa [balance_row] using h p.1 nd

/-- WCVAR rows never carry such a name. -/
lemma countP_wcvar_eq_zero (target : String)
    (h : ∀ k, "k" ++ k ++ "_wcvar_constraint" ≠ target) :
    (wcvar_rows d branching beta).countP (fun c => c.name == target) = 0 := by
  apply List.countP_eq_zero.mpr
  intro c hc
  obtain ⟨p, hp, rfl⟩ := List.mem_map.mp hc
  simpa [wcvar_rows, wcvar_row] using h p.1

/-- z rows never carry such a name. -/
lemma countP_z_eq_zero (target : String)
    (h : ∀ k nd, "z_k" ++ k ++ "_s" ++ nd ++ "_constraint" ≠ target) :
    (z_rows d instruments branching initial_wealth).countP (fun c => c.name == target) = 0 := by
  apply List.countP_eq_zero.mpr
  intro c hc
  obtain ⟨p, hp, hc2⟩ := List.mem_flatMap.mp hc
  obtain ⟨nd, hnd, rfl⟩ := List.mem_map.mp hc2
  simpa [z_row] using h p.1 nd

/-- Terminal-return rows never carry such a name. -/
lemma countP_terminal_eq_zero (wm : String) (target : String)
    (h : ∀ k, "k" ++ k ++ "_return_constraint" ≠ target) :
    (terminal_return_rows d instruments branching return_target wm).countP
      (fun c => c.name == target) = 0 := by
  apply List.countP_eq_zero.mpr
  intro c hc
  rw [terminal_return_rows] at hc
  by_cases hwm : wm == "no"
  · rw [if_pos hwm] at hc
    obtain ⟨p, hp, rfl⟩ := List.mem_map.mp hc
    simpa [terminal_return_row] using h p.1
  · rw [if_neg hwm] at hc
    exact absurd hc (List.not_mem_nil c)

/-- A family of rows mapped over the dict with names
`pre ++ key ++ suf` contains exactly one row named after key `k`. -/
lemma countP_key_family_eq_one (f : String × ScenTree → Constr) (pre suf : String)
    (hname : ∀ p, (f p).name = pre ++ p.1 ++ suf)
    (k : String) (hk : k ∈ d.map Prod.fst) (hnodup : (d.map Prod.fst).Nodup) :
    (d.map f).countP (fun c => c.name == pre ++ k ++ suf) = 1 := by
  rw [List.countP_map]
  have hcong : ∀ p ∈ d,
      (((fun c => c.name == pre ++ k ++ suf) ∘ f) p = true)
      ↔ (((fun s => s == k) ∘ Prod.fst) p = true) := by
    intro p _
    simp only [Function.comp, hname p, beq_iff_eq]
    exact ⟨fun h => key_name_inj h, fun h => by rw [h]⟩
  rw [List.countP_congr hcong, ← List.countP_map]
  simpa [List.count] using List.count_eq_one_of_mem hnodup hk

end NameCount


/-- Boolean equality agrees with decidable equality. -/
lemma beq_eq_decide {α : Type} [BEq α] [LawfulBEq α] [DecidableEq α] (a b : α) :
    (a == b) = decide (a = b) := by
  cases h : decide (a = b)
  · simp only [decide_eq_false_iff_not] at h
    exact beq_false_of_ne h
  · simp only [decide_eq_true_eq] at h
    exact beq_iff_eq.mpr h ▸ rfl

section CMain

variable (d : ScenDict) (instruments : List String) (branching : List ℕ)
  (initial_portfolio : List ℚ) (sell_bounds buy_bounds weight_bounds : ℚ × ℚ)
  (cost_to_buy cost_to_sell beta initial_wealth return_target : ℚ)
  (wcvar_minimizer : String)

/-- Under node-set alignment with the first tree, the `isin(final_nodes)`
filter of tree `k` selects exactly its rows of full path length. -/
lemma filter_isin_final (tk : ScenTree)
    (halign : tk.map ScenNode.node = (firstTree d).map ScenNode.node) :
    tk.filter (fun nd => (final_nodes d branching).contains nd.node)
    = tk.filter (fun nd => strLen nd.node == branching.length) := by
  apply List.filter_congr
  intro nd hnd
  have hmem : nd.node ∈ (firstTree d).map ScenNode.node := by
    rw [← halign]
    exact List.mem_map_of_mem _ hnd
  have h1 : nd.node ∈ final_nodes d branching ↔ strLen nd.node = branching.length := by
    unfold final_nodes
    constructor
    · intro hx
      obtain ⟨nd2, hnd2, he⟩ := List.mem_map.mp hx
      have h3 := List.of_mem_filter hnd2
      rw [← he]
      simpa using h3
    · intro hlen
      obtain ⟨nd2, hnd2, he⟩ := List.mem_map.mp hmem
      apply List.mem_map.mpr
      refine ⟨nd2, List.mem_filter.mpr ⟨hnd2, ?_⟩, he⟩
      simp [he, hlen]
  rw [beq_eq_decide,
    show (final_nodes d branching).contains nd.node
      = List.elem nd.node (final_nodes d branching) from rfl,
    List.elem_eq_mem]
  exact decide_eq_decide.mpr h1


/-- C1 (amended): for every rival tree `k` in `scenarios_dict` (keys
unique, node set aligned with the first tree),
`robust_portfolio_optimisation` emits exactly one worst-case-CVaR
constraint, namely the row over `[wcvar, var_k, z_k_s...]` with
coefficients `[1, -1, cum_probability * (-1/(1-beta)) ...]` over the
final nodes of tree `k`, sense >=, right-hand side 0 - that is,
`wcvar >= var_k + (1/(1-beta)) * sum_s probability_s * z_ks`. -/
theorem C1_wcvar_row (k : String) (tk : ScenTree)
    (hk : (k, tk) ∈ d) (hnodup : (d.map Prod.fst).Nodup)
    (halign : tk.map ScenNode.node = (firstTree d).map ScenNode.node) :
    (robustModel d instruments branching initial_portfolio sell_bounds buy_bounds
      weight_bounds cost_to_buy cost_to_sell beta initial_wealth return_target
      wcvar_minimizer).constraints.countP
        (fun c => c.name == "k" ++ k ++ "_wcvar_constraint") = 1 ∧
    ({ name := "k" ++ k ++ "_wcvar_constraint"
       vars := "wcvar" :: ("var_" ++ k) ::
         (final_nodes d branching).map (fun node => "z_k" ++ k ++ "_s" ++ node)
       coeffs := 1 :: (-1) ::
         (tk.filter (fun nd => strLen nd.node == branching.length)).map
           (fun nd => nd.cum_probability * (-1 / (1 - beta)))
       sense := .ge
       rhs := 0 } : Constr) ∈
    (robustModel d instruments branching initial_portfolio sell_bounds buy_bounds
      weight_bounds cost_to_buy cost_to_sell beta initial_wealth return_target
      wcvar_minimizer).constraints := by
  constructor
  · rw [robustModel]
    simp only [List.countP_append]
    rw [countP_t0_eq_zero instruments initial_portfolio cost_to_buy cost_to_sell _
        (fun i _ => by
          rw [str_append_assoc]
          exact ne_of_get "w_0_" "k" _ _ 0 (by decide) (by decide) (by decide)),
      countP_intermediate_eq_zero d instruments branching cost_to_buy cost_to_sell _
        (fun k2 i nd => by
          simp only [str_append_assoc]
          exact ne_of_get "w_k" "k" _ _ 0 (by decide) (by decide) (by decide)),
      countP_balance_eq_zero d instruments branching _
        (fun k2 nd => ne_of_rev_get "_balance_constraint" "_wcvar_constraint" _ _ 11
          (by decide) (by decide) (by decide)),
      countP_z_eq_zero d instruments branching initial_wealth _
        (fun k2 nd => by
          simp only [str_append_assoc]
          exact ne_of_get "z_k" "k" _ _ 0 (by decide) (by decide) (by decide)),
      countP_terminal_eq_zero d instruments branching return_target wcvar_minimizer _
        (fun k2 => ne_of_rev_get "_return_constraint" "_wcvar_constraint" _ _ 11
          (by decide) (by decide) (by decide)),
      show (wcvar_rows d branching beta).countP
          (fun c => c.name == "k" ++ k ++ "_wcvar_constraint") = 1 from
        countP_key_family_eq_one d _ "k" "_wcvar_constraint" (fun p => rfl) k
          (List.mem_map_of_mem Prod.fst hk) hnodup]
    have hb : (List.countP (fun c => c.name == "k" ++ k ++ "_wcvar_constraint")
        [w0_balance_row instruments initial_portfolio]) = 0 := by
      apply List.countP_eq_zero.mpr
      intro c hc
      rw [List.mem_singleton] at hc
      subst hc
      simp only [w0_balance_row, beq_iff_eq]
      intro hcontr
      have h2 : "k" ++ (k ++ "_wcvar_constraint") = "w_0_balance_constraint" := by
        rw [← str_append_assoc]
        exact hcontr.symm
      exact ne_of_get_lit "k" "w_0_balance_constraint" _ 0 (by decide) (by decide)
        (by decide) h2
    rw [hb]
  · have hmem : wcvar_row k tk (final_nodes d branching) beta ∈
        wcvar_rows d branching beta :=
      List.mem_map_of_mem (fun p => wcvar_row p.1 p.2 (final_nodes d branching) beta) hk
    have heq : wcvar_row k tk (final_nodes d branching) beta =
        { name := "k" ++ k ++ "_wcvar_constraint"
          vars := "wcvar" :: ("var_" ++ k) ::
            (final_nodes d branching).map (fun node => "z_k" ++ k ++ "_s" ++ node)
          coeffs := 1 :: (-1) ::
            (tk.filter (fun nd => strLen nd.node == branching.length)).map
              (fun nd => nd.cum_probability * (-1 / (1 - beta)))
          sense := .ge
          rhs := 0 } := by
      rw [wcvar_row, filter_isin_final d branching tk halign]
    rw [robustModel]
    simp only [List.mem_append]
    exact Or.inl (Or.inl (Or.inr (heq ▸ hmem)))

end CMain


/-- C1, counterexample to the claim as stated: read literally, the
claimed inequality `wcvar >= var_k - (1/(1-beta))*sum probability*z`
with right-hand side 0 is the row with z coefficients
`+(1/(1-beta))*probability` (here `+1` at `beta = 1/2`,
`cum_probability = 1/2`), but the emitted row `k1_wcvar_constraint`
carries z coefficients `-1`: the sign of the z term is flipped. -/
theorem C1_counterexample :
    (∃ c ∈ exModelNo.constraints, c.name = "k1_wcvar_constraint" ∧
      c.coeffs = [1, -1, -1, -1] ∧ c.sense = Sense.ge ∧ c.rhs = 0) ∧
    (∀ c ∈ exModelNo.constraints, c.name = "k1_wcvar_constraint" →
      c.coeffs ≠ [1, -1, 1, 1]) ∧
    (1 / (1 - (1:ℚ)/2) * (1/2)) = 1 :=
  of_decide_eq_true (by with_unfolding_all rfl)

/-- C1, witness: the amended theorem applied to the example input
(tree "1" of `exDict`). -/
theorem C1_witness :
    exModelNo.constraints.countP
      (fun c => c.name == "k" ++ "1" ++ "_wcvar_constraint") = 1 ∧
    ({ name := "k" ++ "1" ++ "_wcvar_constraint"
       vars := "wcvar" :: ("var_" ++ "1") ::
         (final_nodes exDict exBranching).map (fun node => "z_k" ++ "1" ++ "_s" ++ node)
       coeffs := 1 :: (-1) ::
         (exTree1.filter (fun nd => strLen nd.node == exBranching.length)).map
           (fun nd => nd.cum_probability * (-1 / (1 - 1/2)))
       sense := .ge
       rhs := 0 } : Constr) ∈ exModelNo.constraints :=
  C1_wcvar_row exDict exInstr exBranching exPortfolio exSell exBuy exWeight
    (1/100) (1/100) (1/2) 1 (27/25) "no" "1" exTree1
    (List.Mem.head _) (of_decide_eq_true (by with_unfolding_all rfl)) rfl


section CTrans

variable (d : ScenDict) (instruments : List String) (branching : List ℕ)
  (initial_portfolio : List ℚ) (sell_bounds buy_bounds weight_bounds : ℚ × ℚ)
  (cost_to_buy cost_to_sell beta initial_wealth return_target : ℚ)
  (wcvar_minimizer : String)

/-- C2 (amended): for every tree `k`, instrument `i` (index `j`) and
internal node `n`, the emitted transaction row is the equality
`ret * weight(t-1) + (1-cost_to_buy)*buy - (1+cost_to_sell)*sell - weight(t) = 0`
with `ret` the realized return of instrument `i` at node `n` in tree
`k` - so the coefficient multiplying the previous-period weight
variable is the realized return, not 1 in general.  At t=0 the row is
`weight - (1-cost_to_buy)*buy + (1+cost_to_sell)*sell = initial_portfolio[j]`,
the previous holding appearing as the constant right-hand side. -/
theorem C2_transaction_rows (k : String) (tk : ScenTree) (hk : (k, tk) ∈ d)
    (j : ℕ) (i : String) (hji : (j, i) ∈ instruments.enum)
    (node : String) (hn : node ∈ internal_nodes d branching) :
    (intermediate_row k tk i j node cost_to_buy cost_to_sell ∈
      (robustModel d instruments branching initial_portfolio sell_bounds buy_bounds
        weight_bounds cost_to_buy cost_to_sell beta initial_wealth return_target
        wcvar_minimizer).constraints) ∧
    intermediate_row k tk i j node cost_to_buy cost_to_sell =
      { name := "w_k" ++ k ++ "_" ++ i ++ "_s" ++ node ++ "_return_constraint"
        vars := [(if strLen node == 1 then "w_0_" ++ i
                  else "w_k" ++ k ++ "_" ++ i ++ "_s" ++ strInit node),
                 "b_k" ++ k ++ "_" ++ i ++ "_s" ++ node,
                 "s_k" ++ k ++ "_" ++ i ++ "_s" ++ node,
                 "w_k" ++ k ++ "_" ++ i ++ "_s" ++ node]
        coeffs := [retLookup tk node j, 1 - cost_to_buy, -(1 + cost_to_sell), -1]
        sense := .eq
        rhs := 0 } ∧
    (t0_weight_row i j initial_portfolio cost_to_buy cost_to_sell ∈
      (robustModel d instruments branching initial_portfolio sell_bounds buy_bounds
        weight_bounds cost_to_buy cost_to_sell beta initial_wealth return_target
        wcvar_minimizer).constraints) ∧
    t0_weight_row i j initial_portfolio cost_to_buy cost_to_sell =
      { name := "w_0_" ++ i
        vars := ["w_0_" ++ i, "b_0_" ++ i, "s_0_" ++ i]
        coeffs := [1, -(1 - cost_to_buy), 1 + cost_to_sell]
        sense := .eq
        rhs := initial_portfolio.getD j 0 } := by
  refine ⟨?_, rfl, ?_, rfl⟩
  · have h1 : intermediate_row k tk i j node cost_to_buy cost_to_sell ∈
        intermediate_rows d instruments branching cost_to_buy cost_to_sell :=
      List.mem_flatMap.mpr ⟨(k, tk), hk,
        List.mem_flatMap.mpr ⟨(j, i), hji, List.mem_map_of_mem _ hn⟩⟩
    rw [robustModel]
    exact List.mem_append_left _ (List.mem_append_left _ (List.mem_append_left _
      (List.mem_append_left _ (List.mem_append_right _ h1))))
  · have h1 : t0_weight_row i j initial_portfolio cost_to_buy cost_to_sell ∈
        t0_weight_rows instruments initial_portfolio cost_to_buy cost_to_sell :=
      List.mem_map_of_mem (fun p => t0_weight_row p.2 p.1 initial_portfolio
        cost_to_buy cost_to_sell) hji
    rw [robustModel]
    exact List.mem_append_left _ (List.mem_append_left _ (List.mem_append_left _
      (List.mem_append_left _ (List.mem_append_left _ (List.mem_append_left _ h1)))))

/-- C5 (amended): for every tree `k` and internal node, the emitted
buy-sell balance row is an equality with right-hand side 0; at the t=0
node a single balance constraint shared across trees is emitted, with
right-hand side `1 - sum(initial_portfolio)` (0 exactly when the
initial portfolio sums to 1). -/
theorem C5_balance_rows (k : String) (tk : ScenTree) (hk : (k, tk) ∈ d)
    (node : String) (hn : node ∈ internal_nodes d branching) :
    (balance_row k instruments node ∈
      (robustModel d instruments branching initial_portfolio sell_bounds buy_bounds
        weight_bounds cost_to_buy cost_to_sell beta initial_wealth return_target
        wcvar_minimizer).constraints) ∧
    balance_row k instruments node =
      { name := "k" ++ k ++ "_s" ++ node ++ "_balance_constraint"
        vars := instruments.map (fun i => "b_k" ++ k ++ "_" ++ i ++ "_s" ++ node)
                ++ instruments.map (fun i => "s_k" ++ k ++ "_" ++ i ++ "_s" ++ node)
        coeffs := List.replicate instruments.length 1
                ++ List.replicate instruments.length (-1)
        sense := .eq
        rhs := 0 } ∧
    (w0_balance_row instruments initial_portfolio ∈
      (robustModel d instruments branching initial_portfolio sell_bounds buy_bounds
        weight_bounds cost_to_buy cost_to_sell beta initial_wealth return_target
        wcvar_minimizer).constraints) ∧
    w0_balance_row instruments initial_portfolio =
      { name := "w_0_balance_constraint"
        vars := w0_asset_buys instruments ++ w0_asset_sells instruments
        coeffs := List.replicate instruments.length 1
                ++ List.replicate instruments.length (-1)
        sense := .eq
        rhs := 1 - initial_portfolio.sum } := by
  refine ⟨?_, rfl, ?_, rfl⟩
  · have h1 : balance_row k instruments node ∈ balance_rows d instruments branching :=
      List.mem_flatMap.mpr ⟨(k, tk), hk, List.mem_map_of_mem _ hn⟩
    rw [robustModel]
    exact List.mem_append_left _ (List.mem_append_left _ (List.mem_append_left _
      (List.mem_append_right _ h1)))
  · rw [robustModel]
    exact List.mem_append_left _ (List.mem_append_left _ (List.mem_append_left _
      (List.mem_append_left _ (List.mem_append_left _ (List.mem_append_right _
        (List.mem_singleton.mpr rfl))))))

end CTrans

/-- C2, counterexample: in the example model, the transaction row of
tree "1", instrument "A", internal node "1" carries coefficient
`21/20` - the realized return - on the previous-period weight variable
`w_0_A`, not 1 as claimed. -/
theorem C2_counterexample :
    (∃ c ∈ exModelNo.constraints,
      c.vars = ["w_0_A", "b_k1_A_s1", "s_k1_A_s1", "w_k1_A_s1"] ∧
      c.sense = Sense.eq ∧ c.coeffs.head? = some (21/20)) ∧
    ((21:ℚ)/20) ≠ 1 :=
  of_decide_eq_true (by with_unfolding_all rfl)

/-- C2, witness: the amended theorem applied to the example input. -/
theorem C2_witness :
    (intermediate_row "1" exTree1 "A" 0 "1" (1/100) (1/100) ∈ exModelNo.constraints) ∧
    intermediate_row "1" exTree1 "A" 0 "1" (1/100) (1/100) =
      { name := "w_k" ++ "1" ++ "_" ++ "A" ++ "_s" ++ "1" ++ "_return_constraint"
        vars := [(if strLen "1" == 1 then "w_0_" ++ "A"
                  else "w_k" ++ "1" ++ "_" ++ "A" ++ "_s" ++ strInit "1"),
                 "b_k" ++ "1" ++ "_" ++ "A" ++ "_s" ++ "1",
                 "s_k" ++ "1" ++ "_" ++ "A" ++ "_s" ++ "1",
                 "w_k" ++ "1" ++ "_" ++ "A" ++ "_s" ++ "1"]
        coeffs := [retLookup exTree1 "1" 0, 1 - 1/100, -(1 + 1/100), -1]
        sense := .eq
        rhs := 0 } ∧
    (t0_weight_row "A" 0 exPortfolio (1/100) (1/100) ∈ exModelNo.constraints) ∧
    t0_weight_row "A" 0 exPortfolio (1/100) (1/100) =
      { name := "w_0_" ++ "A"
        vars := ["w_0_" ++ "A", "b_0_" ++ "A", "s_0_" ++ "A"]
        coeffs := [1, -(1 - 1/100), 1 + 1/100]
        sense := .eq
        rhs := exPortfolio.getD 0 0 } :=
  C2_transaction_rows exDict exInstr exBranching exPortfolio exSell exBuy exWeight
    (1/100) (1/100) (1/2) 1 (27/25) "no" "1" exTree1 (List.Mem.head _)
    0 "A" (of_decide_eq_true (by with_unfolding_all rfl))
    "1" (of_decide_eq_true (by with_unfolding_all rfl))

/-- C5, counterexample: with `initial_portfolio = [1/2, 1/4]`, the only
constraint summing the t=0 buys (+1) against the t=0 sells (-1) has
right-hand side 1/4, not 0 - the t=0 balance constraint forces
`sum buys - sum sells = 1 - sum(initial_portfolio)`, not 0. -/
theorem C5_counterexample :
    ((exModelFrac.constraints.filter
        (fun c => c.vars == ["b_0_A", "b_0_B", "s_0_A", "s_0_B"])).map Constr.rhs
      = [1/4]) ∧
    ((1:ℚ)/4) ≠ 0 :=
  of_decide_eq_true (by with_unfolding_all rfl)

/-- C5, witness: the amended theorem applied to the example input. -/
theorem C5_witness :
    (balance_row "1" exInstr "1" ∈ exModelNo.constraints) ∧
    balance_row "1" exInstr "1" =
      { name := "k" ++ "1" ++ "_s" ++ "1" ++ "_balance_constraint"
        vars := exInstr.map (fun i => "b_k" ++ "1" ++ "_" ++ i ++ "_s" ++ "1")
                ++ exInstr.map (fun i => "s_k" ++ "1" ++ "_" ++ i ++ "_s" ++ "1")
        coeffs := List.replicate exInstr.length 1 ++ List.replicate exInstr.length (-1)
        sense := .eq
        rhs := 0 } ∧
    (w0_balance_row exInstr exPortfolio ∈ exModelNo.constraints) ∧
    w0_balance_row exInstr exPortfolio =
      { name := "w_0_balance_constraint"
        vars := w0_asset_buys exInstr ++ w0_asset_sells exInstr
        coeffs := List.replicate exInstr.length 1 ++ List.replicate exInstr.length (-1)
        sense := .eq
        rhs := 1 - exPortfolio.sum } :=
  C5_balance_rows exDict exInstr exBranching exPortfolio exSell exBuy exWeight
    (1/100) (1/100) (1/2) 1 (27/25) "no" "1" exTree1 (List.Mem.head _)
    "1" (of_decide_eq_true (by with_unfolding_all rfl))


/-- A flatMap whose pieces all have length `n` has length `l.length * n`. -/
lemma length_flatMap_const {α β : Type} (l : List α) (f : α → List β) (n : ℕ)
    (h : ∀ a ∈ l, (f a).length = n) : (l.flatMap f).length = l.length * n := by
  induction l with
  | nil => simp
  | cons a t ih =>
      rw [List.flatMap_cons, List.length_append, h a (List.mem_cons_self a t),
        ih (fun x hx => h x (List.mem_cons_of_mem a hx))]
      simp [Nat.succ_mul, Nat.add_comm]

section CMore

variable (d : ScenDict) (instruments : List String) (branching : List ℕ)
  (initial_portfolio : List ℚ) (sell_bounds buy_bounds weight_bounds : ℚ × ℚ)
  (cost_to_buy cost_to_sell beta initial_wealth return_target : ℚ)
  (wcvar_minimizer : String)

/-- C6: the assembled objective vector gives coefficient 1.0 to the
leading `wcvar` variable and 0.0 to every other declared variable (no
other declared name is `wcvar`), and the problem sense is
minimisation. -/
theorem C6_objective :
    (robustModel d instruments branching initial_portfolio sell_bounds buy_bounds
      weight_bounds cost_to_buy cost_to_sell beta initial_wealth return_target
      wcvar_minimizer).objSense = ObjSense.minimize ∧
    (robustModel d instruments branching initial_portfolio sell_bounds buy_bounds
      weight_bounds cost_to_buy cost_to_sell beta initial_wealth return_target
      wcvar_minimizer).varNames.head? = some "wcvar" ∧
    (robustModel d instruments branching initial_portfolio sell_bounds buy_bounds
      weight_bounds cost_to_buy cost_to_sell beta initial_wealth return_target
      wcvar_minimizer).objCoeffs
      = 1 :: List.replicate
          ((robustModel d instruments branching initial_portfolio sell_bounds buy_bounds
            weight_bounds cost_to_buy cost_to_sell beta initial_wealth return_target
            wcvar_minimizer).varNames.length - 1) 0 ∧
    ∀ v ∈ (robustModel d instruments branching initial_portfolio sell_bounds buy_bounds
      weight_bounds cost_to_buy cost_to_sell beta initial_wealth return_target
      wcvar_minimizer).varNames.tail, v ≠ "wcvar" := by
  refine ⟨rfl, rfl, rfl, ?_⟩
  intro v hv
  simp only [robustModel, all_variables, List.tail_cons, List.mem_append] at hv
  rcases hv with ((((((hv | hv) | hv) | hv) | hv) | hv) | hv) | hv
  · obtain ⟨p, hp, rfl⟩ := List.mem_map.mp hv
    exact ne_of_get_lit "var_" "wcvar" _ 0 (by decide) (by decide) (by decide)
  · obtain ⟨p, hp, hv2⟩ := List.mem_flatMap.mp hv
    obtain ⟨nd, hnd, rfl⟩ := List.mem_map.mp hv2
    simp only [str_append_assoc]
    exact ne_of_get_lit "z_k" "wcvar" _ 0 (by decide) (by decide) (by decide)
  · obtain ⟨i, hi, rfl⟩ := List.mem_map.mp hv
    exact ne_of_get_lit "w_0_" "wcvar" _ 1 (by decide) (by decide) (by decide)
  · obtain ⟨p, hp, hv2⟩ := List.mem_flatMap.mp hv
    obtain ⟨i, hi, hv3⟩ := List.mem_flatMap.mp hv2
    obtain ⟨nd, hnd, rfl⟩ := List.mem_map.mp hv3
    simp only [str_append_assoc]
    exact ne_of_get_lit "w_k" "wcvar" _ 1 (by decide) (by decide) (by decide)
  · obtain ⟨i, hi, rfl⟩ := List.mem_map.mp hv
    exact ne_of_get_lit "b_0_" "wcvar" _ 0 (by decide) (by decide) (by decide)
  · obtain ⟨p, hp, hv2⟩ := List.mem_flatMap.mp hv
    obtain ⟨i, hi, hv3⟩ := List.mem_flatMap.mp hv2
    obtain ⟨nd, hnd, rfl⟩ := List.mem_map.mp hv3
    simp only [str_append_assoc]
    exact ne_of_get_lit "b_k" "wcvar" _ 0 (by decide) (by decide) (by decide)
  · obtain ⟨i, hi, rfl⟩ := List.mem_map.mp hv
    exact ne_of_get_lit "s_0_" "wcvar" _ 0 (by decide) (by decide) (by decide)
  · obtain ⟨p, hp, hv2⟩ := List.mem_flatMap.mp hv
    obtain ⟨i, hi, hv3⟩ := List.mem_flatMap.mp hv2
    obtain ⟨nd, hnd, rfl⟩ := List.mem_map.mp hv3
    simp only [str_append_assoc]
    exact ne_of_get_lit "s_k" "wcvar" _ 0 (by decide) (by decide) (by decide)

/-- C7: the single t=0 balance constraint (buys +1, sells -1 over all
instruments) has right-hand side `1 - sum(initial_portfolio)`; no
instrument is itself named "balance_constraint", so exactly one
constraint carries the name `w_0_balance_constraint`. -/
theorem C7_w0_balance_rhs (hbal : "balance_constraint" ∉ instruments) :
    (robustModel d instruments branching initial_portfolio sell_bounds buy_bounds
      weight_bounds cost_to_buy cost_to_sell beta initial_wealth return_target
      wcvar_minimizer).constraints.countP
        (fun c => c.name == "w_0_balance_constraint") = 1 ∧
    (w0_balance_row instruments initial_portfolio ∈
      (robustModel d instruments branching initial_portfolio sell_bounds buy_bounds
        weight_bounds cost_to_buy cost_to_sell beta initial_wealth return_target
        wcvar_minimizer).constraints) ∧
    w0_balance_row instruments initial_portfolio =
      { name := "w_0_balance_constraint"
        vars := w0_asset_buys instruments ++ w0_asset_sells instruments
        coeffs := List.replicate instruments.length 1
                ++ List.replicate instruments.length (-1)
        sense := .eq
        rhs := 1 - initial_portfolio.sum } := by
  refine ⟨?_, ?_, rfl⟩
  · rw [robustModel]
    simp only [List.countP_append]
    rw [countP_t0_eq_zero instruments initial_portfolio cost_to_buy cost_to_sell _
        (fun i hi => by
          intro hcontr
          have hlit : ("w_0_balance_constraint" : String)
              = "w_0_" ++ "balance_constraint" := rfl
          rw [hlit] at hcontr
          exact hbal (str_append_left_cancel hcontr ▸ hi)),
      countP_intermediate_eq_zero d instruments branching cost_to_buy cost_to_sell _
        (fun k2 i nd => ne_of_rev_get_lit "_return_constraint" "w_0_balance_constraint"
          _ 11 (by decide) (by decide) (by decide)),
      countP_balance_eq_zero d instruments branching _
        (fun k2 nd => by
          simp only [str_append_assoc]
          exact ne_of_get_lit "k" "w_0_balance_constraint" _ 0
            (by decide) (by decide) (by decide)),
      countP_wcvar_eq_zero d branching beta _
        (fun k2 => by
          simp only [str_append_assoc]
          exact ne_of_get_lit "k" "w_0_balance_constraint" _ 0
            (by decide) (by decide) (by decide)),
      countP_z_eq_zero d instruments branching initial_wealth _
        (fun k2 nd => by
          simp only [str_append_assoc]
          exact ne_of_get_lit "z_k" "w_0_balance_constraint" _ 0
            (by decide) (by decide) (by decide)),
      countP_terminal_eq_zero d instruments branching return_target wcvar_minimizer _
        (fun k2 => by
          simp only [str_append_assoc]
          exact ne_of_get_lit "k" "w_0_balance_constraint" _ 0
            (by decide) (by decide) (by decide))]
    simp [w0_balance_row]
  · rw [robustModel]
    exact List.mem_append_left _ (List.mem_append_left _ (List.mem_append_left _
      (List.mem_append_left _ (List.mem_append_left _ (List.mem_append_right _
        (List.mem_singleton.mpr rfl))))))

/-- C8: the lower- and upper-bound arrays each have the same length as
the variable-name array `all_variables`, which enumerates 1 wcvar, one
var per tree, one z per tree and final node, and weights, buys and
sells for t=0 and for every tree, instrument and internal node. -/
theorem C8_bound_lengths :
    (robustModel d instruments branching initial_portfolio sell_bounds buy_bounds
      weight_bounds cost_to_buy cost_to_sell beta initial_wealth return_target
      wcvar_minimizer).lowerBounds.length
      = (robustModel d instruments branching initial_portfolio sell_bounds buy_bounds
          weight_bounds cost_to_buy cost_to_sell beta initial_wealth return_target
          wcvar_minimizer).varNames.length ∧
    (robustModel d instruments branching initial_portfolio sell_bounds buy_bounds
      weight_bounds cost_to_buy cost_to_sell beta initial_wealth return_target
      wcvar_minimizer).upperBounds.length
      = (robustModel d instruments branching initial_portfolio sell_bounds buy_bounds
          weight_bounds cost_to_buy cost_to_sell beta initial_wealth return_target
          wcvar_minimizer).varNames.length ∧
    (robustModel d instruments branching initial_portfolio sell_bounds buy_bounds
      weight_bounds cost_to_buy cost_to_sell beta initial_wealth return_target
      wcvar_minimizer).varNames.length
      = 1 + d.length + d.length * (final_nodes d branching).length
        + 3 * (instruments.length
            + d.length * (instruments.length * (internal_nodes d branching).length)) := by
  have hvar : (var d).length = d.length := List.length_map d _
  have hz : (zList d branching).length = d.length * (final_nodes d branching).length :=
    length_flatMap_const d _ _ (fun p _ => List.length_map _ _)
  have haw : (asset_weights d instruments branching).length
      = d.length * (instruments.length * (internal_nodes d branching).length) :=
    length_flatMap_const d _ _ (fun p _ =>
      length_flatMap_const instruments _ _ (fun i _ => List.length_map _ _))
  have hab : (asset_buys d instruments branching).length
      = d.length * (instruments.length * (internal_nodes d branching).length) :=
    length_flatMap_const d _ _ (fun p _ =>
      length_flatMap_const instruments _ _ (fun i _ => List.length_map _ _))
  have has : (asset_sells d instruments branching).length
      = d.length * (instruments.length * (internal_nodes d branching).length) :=
    length_flatMap_const d _ _ (fun p _ =>
      length_flatMap_const instruments _ _ (fun i _ => List.length_map _ _))
  have hw0w : (w0_asset_weights instruments).length = instruments.length :=
    List.length_map _ _
  have hw0b : (w0_asset_buys instruments).length = instruments.length :=
    List.length_map _ _
  have hw0s : (w0_asset_sells instruments).length = instruments.length :=
    List.length_map _ _
  refine ⟨?_, ?_, ?_⟩ <;>
    simp only [robustModel, all_lower_bounds, all_upper_bounds, all_variables,
      List.length_append, List.length_replicate, List.length_cons, List.length_singleton,
      List.length_nil, hvar, hz, haw, hab, has, hw0w, hw0b, hw0s] <;>
    ring

end CMore


/-- C7, witness: the theorem applied to the example input. -/
theorem C7_witness :
    exModelNo.constraints.countP (fun c => c.name == "w_0_balance_constraint") = 1 ∧
    (w0_balance_row exInstr exPortfolio ∈ exModelNo.constraints) ∧
    w0_balance_row exInstr exPortfolio =
      { name := "w_0_balance_constraint"
        vars := w0_asset_buys exInstr ++ w0_asset_sells exInstr
        coeffs := List.replicate exInstr.length 1 ++ List.replicate exInstr.length (-1)
        sense := .eq
        rhs := 1 - exPortfolio.sum } :=
  C7_w0_balance_rhs exDict exInstr exBranching exPortfolio exSell exBuy exWeight
    (1/100) (1/100) (1/2) 1 (27/25) "no"
    (of_decide_eq_true (by with_unfolding_all rfl))


section CReturnMode

variable (d : ScenDict) (instruments : List String) (branching : List ℕ)
  (initial_portfolio : List ℚ) (sell_bounds buy_bounds weight_bounds : ℚ × ℚ)
  (cost_to_buy cost_to_sell beta initial_wealth return_target : ℚ)

/-- The number of constraints named `k{k}_return_constraint` in the
assembled model is 1 in CVaR-threshold mode (`wcvar_minimizer = 'no'`)
and 0 otherwise. -/
lemma countP_return_name (k : String) (hk : k ∈ d.map Prod.fst)
    (hnodup : (d.map Prod.fst).Nodup) (wm : String) :
    (robustModel d instruments branching initial_portfolio sell_bounds buy_bounds
      weight_bounds cost_to_buy cost_to_sell beta initial_wealth return_target
      wm).constraints.countP
        (fun c => c.name == "k" ++ k ++ "_return_constraint")
      = if wm == "no" then 1 else 0 := by
  rw [robustModel]
  simp only [List.countP_append]
  rw [countP_t0_eq_zero instruments initial_portfolio cost_to_buy cost_to_sell _
      (fun i _ => by
        rw [str_append_assoc]
        exact ne_of_get "w_0_" "k" _ _ 0 (by decide) (by decide) (by decide)),
    countP_intermediate_eq_zero d instruments branching cost_to_buy cost_to_sell _
      (fun k2 i nd => by
        simp only [str_append_assoc]
        exact ne_of_get "w_k" "k" _ _ 0 (by decide) (by decide) (by decide)),
    countP_balance_eq_zero d instruments branching _
      (fun k2 nd => ne_of_rev_get "_balance_constraint" "_return_constraint" _ _ 11
        (by decide) (by decide) (by decide)),
    countP_wcvar_eq_zero d branching beta _
      (fun k2 => ne_of_rev_get "_wcvar_constraint" "_return_constraint" _ _ 11
        (by decide) (by decide) (by decide)),
    countP_z_eq_zero d instruments branching initial_wealth _
      (fun k2 nd => by
        simp only [str_append_assoc]
        exact ne_of_get "z_k" "k" _ _ 0 (by decide) (by decide) (by decide))]
  have hb : (List.countP (fun c => c.name == "k" ++ k ++ "_return_constraint")
      [w0_balance_row instruments initial_portfolio]) = 0 := by
    apply List.countP_eq_zero.mpr
    intro c hc
    rw [List.mem_singleton] at hc
    subst hc
    simp only [w0_balance_row, beq_iff_eq]
    intro hcontr
    have h2 : "k" ++ (k ++ "_return_constraint") = "w_0_balance_constraint" := by
      rw [← str_append_assoc]
      exact hcontr.symm
    exact ne_of_get_lit "k" "w_0_balance_constraint" _ 0 (by decide) (by decide)
      (by decide) h2
  rw [hb, terminal_return_rows]
  by_cases hwm : wm == "no"
  · rw [if_pos hwm, if_pos hwm,
      countP_key_family_eq_one d _ "k" "_return_constraint" (fun p => rfl) k hk hnodup]
  · rw [if_neg hwm, if_neg hwm]
    simp

/-- C3: the terminal return requirement is mode-selected.  With
`wcvar_minimizer = 'no'` the model contains exactly one terminal return
constraint per tree `k`, with sense >= and right-hand side
`return_target`; with `wcvar_minimizer = 'yes'` it contains none.  In
return-maximisation mode (`return_maximisation`) the terminal return is
the objective instead: the single objective coefficient 1.0 sits on the
leading `opt_return` variable, the sense is maximisation, and each tree
contributes a row `opt_return - (grouped terminal return) <= 0`. -/
theorem C3_return_mode (k : String) (tk : ScenTree) (hk : (k, tk) ∈ d)
    (hnodup : (d.map Prod.fst).Nodup) :
    ((robustModel d instruments branching initial_portfolio sell_bounds buy_bounds
      weight_bounds cost_to_buy cost_to_sell beta initial_wealth return_target
      "no").constraints.countP
        (fun c => c.name == "k" ++ k ++ "_return_constraint") = 1 ∧
     terminal_return_row k tk instruments (final_nodes d branching) return_target ∈
      (robustModel d instruments branching initial_portfolio sell_bounds buy_bounds
        weight_bounds cost_to_buy cost_to_sell beta initial_wealth return_target
        "no").constraints ∧
     (terminal_return_row k tk instruments (final_nodes d branching) return_target).sense
       = Sense.ge ∧
     (terminal_return_row k tk instruments (final_nodes d branching) return_target).rhs
       = return_target) ∧
    ((robustModel d instruments branching initial_portfolio sell_bounds buy_bounds
      weight_bounds cost_to_buy cost_to_sell beta initial_wealth return_target
      "yes").constraints.countP
        (fun c => c.name == "k" ++ k ++ "_return_constraint") = 0) ∧
    ((return_maximisation_model d instruments branching initial_portfolio sell_bounds
        buy_bounds weight_bounds cost_to_buy cost_to_sell).objSense = ObjSense.maximize ∧
     (return_maximisation_model d instruments branching initial_portfolio sell_bounds
        buy_bounds weight_bounds cost_to_buy cost_to_sell).varNames.head?
       = some "opt_return" ∧
     (return_maximisation_model d instruments branching initial_portfolio sell_bounds
        buy_bounds weight_bounds cost_to_buy cost_to_sell).objCoeffs
       = 1 :: List.replicate
           ((return_maximisation_model d instruments branching initial_portfolio sell_bounds
              buy_bounds weight_bounds cost_to_buy cost_to_sell).varNames.length - 1) 0 ∧
     rm_return_row k tk instruments (final_nodes d branching) ∈
       (return_maximisation_model d instruments branching initial_portfolio sell_bounds
          buy_bounds weight_bounds cost_to_buy cost_to_sell).constraints ∧
     (rm_return_row k tk instruments (final_nodes d branching)).vars.head?
       = some "opt_return" ∧
     (rm_return_row k tk instruments (final_nodes d branching)).coeffs.head? = some 1 ∧
     (rm_return_row k tk instruments (final_nodes d branching)).sense = Sense.le ∧
     (rm_return_row k tk instruments (final_nodes d branching)).rhs = 0) := by
  have hk1 : k ∈ d.map Prod.fst := List.mem_map_of_mem Prod.fst hk
  refine ⟨⟨?_, ?_, rfl, rfl⟩, ?_, rfl, rfl, rfl, ?_, rfl, rfl, rfl, rfl⟩
  · have h := countP_return_name d instruments branching initial_portfolio sell_bounds
      buy_bounds weight_bounds cost_to_buy cost_to_sell beta initial_wealth
      return_target k hk1 hnodup "no"
    simpa using h
  · rw [robustModel]
    apply List.mem_append_right
    rw [terminal_return_rows, if_pos (by decide : (("no" : String) == "no") = true)]
    exact List.mem_map_of_mem
      (fun p => terminal_return_row p.1 p.2 instruments (final_nodes d branching)
        return_target) hk
  · have h := countP_return_name d instruments branching initial_portfolio sell_bounds
      buy_bounds weight_bounds cost_to_buy cost_to_sell beta initial_wealth
      return_target k hk1 hnodup "yes"
    simpa using h
  · rw [return_maximisation_model]
    apply List.mem_append_right
    exact List.mem_map_of_mem
      (fun p => rm_return_row p.1 p.2 instruments (final_nodes d branching)) hk

end CReturnMode

/-- C3, witness: the theorem applied to the example input. -/
theorem C3_witness :
    (exModelNo.constraints.countP
      (fun c => c.name == "k" ++ "1" ++ "_return_constraint") = 1 ∧
     terminal_return_row "1" exTree1 exInstr (final_nodes exDict exBranching) (27/25) ∈
       exModelNo.constraints ∧
     (terminal_return_row "1" exTree1 exInstr (final_nodes exDict exBranching)
       (27/25)).sense = Sense.ge ∧
     (terminal_return_row "1" exTree1 exInstr (final_nodes exDict exBranching)
       (27/25)).rhs = 27/25) ∧
    (exModelYes.constraints.countP
      (fun c => c.name == "k" ++ "1" ++ "_return_constraint") = 0) ∧
    ((return_maximisation_model exDict exInstr exBranching exPortfolio exSell exBuy
        exWeight (1/100) (1/100)).objSense = ObjSense.maximize ∧
     (return_maximisation_model exDict exInstr exBranching exPortfolio exSell exBuy
        exWeight (1/100) (1/100)).varNames.head? = some "opt_return" ∧
     (return_maximisation_model exDict exInstr exBranching exPortfolio exSell exBuy
        exWeight (1/100) (1/100)).objCoeffs
       = 1 :: List.replicate
           ((return_maximisation_model exDict exInstr exBranching exPortfolio exSell exBuy
              exWeight (1/100) (1/100)).varNames.length - 1) 0 ∧
     rm_return_row "1" exTree1 exInstr (final_nodes exDict exBranching) ∈
       (return_maximisation_model exDict exInstr exBranching exPortfolio exSell exBuy
          exWeight (1/100) (1/100)).constraints ∧
     (rm_return_row "1" exTree1 exInstr (final_nodes exDict exBranching)).vars.head?
       = some "opt_return" ∧
     (rm_return_row "1" exTree1 exInstr (final_nodes exDict exBranching)).coeffs.head?
       = some 1 ∧
     (rm_return_row "1" exTree1 exInstr (final_nodes exDict exBranching)).sense
       = Sense.le ∧
     (rm_return_row "1" exTree1 exInstr (final_nodes exDict exBranching)).rhs = 0) :=
  C3_return_mode exDict exInstr exBranching exPortfolio exSell exBuy exWeight
    (1/100) (1/100) (1/2) 1 (27/25) "1" exTree1 (List.Mem.head _)
    (of_decide_eq_true (by with_unfolding_all rfl))


section CDeclared

variable (d : ScenDict) (instruments : List String) (branching : List ℕ)
  (initial_wealth : ℚ)

/-- C9 (amended): when `branching` has length at least 2, every node
path of the first tree has length at most `len(branching)`, and the
parent path `node[:-1]` of every final node is itself a node of the
first tree, every variable name referenced by the z (CVaR) constraints
is declared in `all_variables`.  (Without the parent-closure condition
the referenced parent weight names need not be declared, and for
`branching` of length 1 the parent of a depth-1 final node is the empty
path, for which no weight variable exists.) -/
theorem C9_z_vars_declared (hb : 2 ≤ branching.length)
    (_hlen : ∀ nd ∈ firstTree d, strLen nd.node ≤ branching.length)
    (hclosed : ∀ s ∈ final_nodes d branching,
      strInit s ∈ (firstTree d).map ScenNode.node) :
    ∀ c ∈ z_rows d instruments branching initial_wealth, ∀ v ∈ c.vars,
      v ∈ all_variables d instruments branching := by
  intro c hc v hv
  obtain ⟨p, hp, hc2⟩ := List.mem_flatMap.mp hc
  obtain ⟨nd, hnd, rfl⟩ := List.mem_map.mp hc2
  have hlenfin : strLen nd = branching.length := by
    obtain ⟨m, hm, he⟩ := List.mem_map.mp hnd
    have h2 := List.of_mem_filter hm
    rw [← he]
    simpa using h2
  have hinternal : strInit nd ∈ internal_nodes d branching := by
    obtain ⟨m, hm, he⟩ := List.mem_map.mp (hclosed nd hnd)
    apply List.mem_map.mpr
    refine ⟨m, List.mem_filter.mpr ⟨hm, ?_⟩, he⟩
    have h3 : strLen m.node = branching.length - 1 := by
      rw [he]
      unfold strInit strLen
      rw [List.length_dropLast]
      rw [show (⟨nd.data⟩ : String).data.length = strLen nd from rfl, hlenfin]
    simp only [decide_eq_true_eq, h3]
    omega
  simp only [z_row, List.mem_cons, List.mem_append, List.mem_map,
    List.mem_singleton] at hv
  rcases hv with rfl | ⟨⟨i, hi, rfl⟩ | (rfl | h0)⟩
  · -- the z variable itself
    rw [all_variables]
    apply List.mem_cons_of_mem
    apply List.mem_append_left
    apply List.mem_append_left
    apply List.mem_append_left
    apply List.mem_append_left
    apply List.mem_append_left
    apply List.mem_append_left
    apply List.mem_append_right
    exact List.mem_flatMap.mpr ⟨p, hp, List.mem_map_of_mem _ hnd⟩
  · -- a parent weight variable
    rw [all_variables]
    apply List.mem_cons_of_mem
    apply List.mem_append_left
    apply List.mem_append_left
    apply List.mem_append_left
    apply List.mem_append_left
    apply List.mem_append_right
    exact List.mem_flatMap.mpr ⟨p, hp,
      List.mem_flatMap.mpr ⟨i, hi, List.mem_map_of_mem _ hinternal⟩⟩
  · -- the var_k variable
    rw [all_variables]
    apply List.mem_cons_of_mem
    apply List.mem_append_left
    apply List.mem_append_left
    apply List.mem_append_left
    apply List.mem_append_left
    apply List.mem_append_left
    apply List.mem_append_left
    apply List.mem_append_left
    exact List.mem_map_of_mem _ hp
  · exact absurd h0 (List.not_mem_nil v)

end CDeclared

/-- C9, counterexample: the tree `[("1", [node "11"])]` with branching
of length 2 satisfies the claim's hypotheses (branching length at least
2, all node paths of length at most 2), yet the z constraint of final
node "11" references the undeclared parent weight variable
`w_k1_A_s1`. -/
theorem C9_counterexample :
    (2 ≤ exBranching.length ∧
      ∀ nd ∈ firstTree exDictShallow, strLen nd.node ≤ exBranching.length) ∧
    (∃ c ∈ z_rows exDictShallow ["A"] exBranching 1, ∃ v ∈ c.vars,
      v ∉ all_variables exDictShallow ["A"] exBranching) :=
  of_decide_eq_true (by with_unfolding_all rfl)

/-- C9, witness: the amended theorem applied to the example input
(whose final-node parents are tree nodes), at the z constraint of tree
"1", final node "11", and its referenced parent weight variable. -/
theorem C9_witness :
    "w_k1_A_s1" ∈ all_variables exDict exInstr exBranching :=
  C9_z_vars_declared exDict exInstr exBranching 1
    (of_decide_eq_true (by with_unfolding_all rfl))
    (of_decide_eq_true (by with_unfolding_all rfl))
    (of_decide_eq_true (by with_unfolding_all rfl))
    (z_row "1" exTree1 exInstr "11" 1)
    (of_decide_eq_true (by with_unfolding_all rfl))
    "w_k1_A_s1"
    (of_decide_eq_true (by with_unfolding_all rfl))


/-- Every successful outcome of the `wcvar_minimizer == 'yes'` block is
the result dict. -/
lemma wcvarMinimizerBlock_ok {d : ScenDict} {instruments fns : List String}
    {beta : ℚ} {names : List String} {values : List ℚ} {objective_value : ℚ}
    {w0w : List String} {w0vals : List ℚ} {v : RPOValue}
    (h : wcvarMinimizerBlock d instruments fns beta names values objective_value
      w0w w0vals = Except.ok v) :
    ∃ a r b c, v = RPOValue.dict a r b c := by
  rw [wcvarMinimizerBlock] at h
  split at h
  · exact absurd h (by simp)
  · split at h
    · exact absurd h (by simp)
    · split at h
      · exact absurd h (by simp)
      · injection h with h2
        exact ⟨_, _, _, _, h2.symm⟩

section CSolve

variable (d : ScenDict) (instruments : List String) (branching : List ℕ)
  (initial_portfolio : List ℚ) (sell_bounds buy_bounds weight_bounds : ℚ × ℚ)
  (cost_to_buy cost_to_sell beta initial_wealth return_target : ℚ)

/-- C4 (amended): with a nonempty `scenarios_dict`, when the Gurobi
backend reports not optimal, or when the CPLEX backend reports not
primal feasible and `wcvar_minimizer` is not 'yes', the function prints
"Not primal feasible." and returns the NaN-sentinel 3-tuple without
raising.  (With CPLEX, `wcvar_minimizer = 'yes'` and an infeasible
problem, the minimizer block reads the non-existent solution and a
CplexError propagates instead - see the counterexample.) -/
theorem C4_infeasible_sentinels (solver wcvar_minimizer : String)
    (gOut : GurobiOutcome) (cOut : CplexOutcome) (hne : d ≠ [])
    (hcase : (solver = "gurobi" ∧ gOut = GurobiOutcome.notOptimal)
      ∨ (solver = "cplex" ∧ wcvar_minimizer ≠ "yes" ∧ cOut = CplexOutcome.infeasible)) :
    (robust_portfolio_optimisation d instruments branching initial_portfolio sell_bounds
      buy_bounds weight_bounds cost_to_buy cost_to_sell beta initial_wealth return_target
      solver wcvar_minimizer gOut cOut).result = Except.ok (RPOValue.tup none none none) ∧
    "Not primal feasible." ∈
      (robust_portfolio_optimisation d instruments branching initial_portfolio sell_bounds
        buy_bounds weight_bounds cost_to_buy cost_to_sell beta initial_wealth return_target
        solver wcvar_minimizer gOut cOut).printed := by
  obtain ⟨a, t, rfl⟩ := List.exists_cons_of_ne_nil hne
  rcases hcase with ⟨hs, hg⟩ | ⟨hs, hwm, hc⟩
  · subst hs
    subst hg
    constructor
    · rfl
    · show _ ∈ rpoPrinted (a :: t) "gurobi" wcvar_minimizer GurobiOutcome.notOptimal cOut
      by_cases hno : (wcvar_minimizer == "no") = true <;>
        simp [rpoPrinted, hno]
  · subst hs
    subst hc
    have hwmb : (wcvar_minimizer == "yes") = false := by
      simpa using hwm
    constructor
    · show rpoResult (a :: t) instruments branching initial_portfolio sell_bounds
        buy_bounds weight_bounds cost_to_buy cost_to_sell beta initial_wealth
        return_target "cplex" wcvar_minimizer gOut CplexOutcome.infeasible = _
      rw [rpoResult.eq_def]
      simp [hwmb]
    · show _ ∈ rpoPrinted (a :: t) "cplex" wcvar_minimizer gOut CplexOutcome.infeasible
      by_cases hno : (wcvar_minimizer == "no") = true <;>
        simp [rpoPrinted, hno, hwmb]

/-- C10: whenever `robust_portfolio_optimisation` completes with a
value, that value is the dict
`{'wcvar', 'return', 'w_0_variables', 'w_0_values'}` exactly when the
solver is 'cplex', `wcvar_minimizer` is 'yes' and the CPLEX backend
reports primal feasibility; in every other completed case it is the
3-tuple `(objective_value, w_0_variables, w_0_values)`. -/
theorem C10_result_shape (solver wcvar_minimizer : String)
    (gOut : GurobiOutcome) (cOut : CplexOutcome) (v : RPOValue)
    (hv : (robust_portfolio_optimisation d instruments branching initial_portfolio
      sell_bounds buy_bounds weight_bounds cost_to_buy cost_to_sell beta initial_wealth
      return_target solver wcvar_minimizer gOut cOut).result = Except.ok v) :
    ((solver = "cplex" ∧ wcvar_minimizer = "yes" ∧
        ∃ o vals, cOut = CplexOutcome.feasible o vals) →
      ∃ a r b c, v = RPOValue.dict a r b c) ∧
    (¬(solver = "cplex" ∧ wcvar_minimizer = "yes" ∧
        ∃ o vals, cOut = CplexOutcome.feasible o vals) →
      ∃ a b c, v = RPOValue.tup a b c) := by
  have hv2 : rpoResult d instruments branching initial_portfolio sell_bounds buy_bounds
      weight_bounds cost_to_buy cost_to_sell beta initial_wealth return_target
      solver wcvar_minimizer gOut cOut = Except.ok v := hv
  rw [rpoResult.eq_def] at hv2
  by_cases hemp : d.isEmpty
  · rw [if_pos hemp] at hv2
    exact absurd hv2 (by simp)
  · rw [if_neg hemp] at hv2
    by_cases hg : (solver == "gurobi") = true
    · rw [if_pos hg] at hv2
      have hsolver : solver = "gurobi" := by simpa using hg
      have hnc : ¬(solver = "cplex" ∧ wcvar_minimizer = "yes" ∧
          ∃ o vals, cOut = CplexOutcome.feasible o vals) := by
        rintro ⟨hcs, -, -⟩
        rw [hsolver] at hcs
        exact absurd hcs (by decide)
      refine ⟨fun hcond => absurd hcond hnc, fun _ => ?_⟩
      cases gOut with
      | optimal obj vars =>
          injection hv2 with h2
          exact ⟨_, _, _, h2.symm⟩
      | notOptimal =>
          injection hv2 with h2
          exact ⟨_, _, _, h2.symm⟩
    · rw [if_neg hg] at hv2
      by_cases hcx : (solver == "cplex") = true
      · rw [if_pos hcx] at hv2
        have hsolver : solver = "cplex" := by simpa using hcx
        split at hv2
        next obj values =>
          split at hv2
          next e hsv => exact absurd hv2 (by simp)
          next w0vals hsv =>
            split at hv2
            next hwm =>
              have hwm2 : wcvar_minimizer = "yes" := by simpa using hwm
              have hd := wcvarMinimizerBlock_ok hv2
              exact ⟨fun _ => hd,
                fun hnc => absurd ⟨hsolver, hwm2, obj, values, rfl⟩ hnc⟩
            next hwm =>
              injection hv2 with h2
              refine ⟨fun hcond => ?_, fun _ => ⟨_, _, _, h2.symm⟩⟩
              exfalso
              obtain ⟨-, hwm2, -⟩ := hcond
              rw [hwm2] at hwm
              exact hwm (by decide)
        next =>
          split at hv2
          next hwm => exact absurd hv2 (by simp)
          next hwm =>
            injection hv2 with h2
            refine ⟨fun hcond => ?_, fun _ => ⟨_, _, _, h2.symm⟩⟩
            exfalso
            obtain ⟨-, -, o, vals, hfe⟩ := hcond
            exact absurd hfe (by simp)
      · rw [if_neg hcx] at hv2
        exact absurd hv2 (by simp)

end CSolve


/-- C4, counterexample: with the CPLEX backend, `wcvar_minimizer =
'yes'` and an infeasible problem, the claim fails: after printing the
diagnostic the minimizer block queries the non-existent solution and a
CplexError propagates instead of the NaN-sentinel return. -/
theorem C4_counterexample :
    (robust_portfolio_optimisation exDict exInstr exBranching exPortfolio exSell exBuy
      exWeight (1/100) (1/100) (1/2) 1 (27/25) "cplex" "yes"
      GurobiOutcome.notOptimal CplexOutcome.infeasible).result
      = Except.error "CplexError: CPLEX Error  1217: No solution exists." ∧
    "Not primal feasible." ∈
      (robust_portfolio_optimisation exDict exInstr exBranching exPortfolio exSell exBuy
        exWeight (1/100) (1/100) (1/2) 1 (27/25) "cplex" "yes"
        GurobiOutcome.notOptimal CplexOutcome.infeasible).printed := by
  constructor
  · with_unfolding_all rfl
  · exact of_decide_eq_true (by with_unfolding_all rfl)

/-- C4, witness: the amended theorem applied to the example input with
the Gurobi backend reporting not optimal. -/
theorem C4_witness :
    (robust_portfolio_optimisation exDict exInstr exBranching exPortfolio exSell exBuy
      exWeight (1/100) (1/100) (1/2) 1 (27/25) "gurobi" "no"
      GurobiOutcome.notOptimal CplexOutcome.infeasible).result
      = Except.ok (RPOValue.tup none none none) ∧
    "Not primal feasible." ∈
      (robust_portfolio_optimisation exDict exInstr exBranching exPortfolio exSell exBuy
        exWeight (1/100) (1/100) (1/2) 1 (27/25) "gurobi" "no"
        GurobiOutcome.notOptimal CplexOutcome.infeasible).printed :=
  C4_infeasible_sentinels exDict exInstr exBranching exPortfolio exSell exBuy exWeight
    (1/100) (1/100) (1/2) 1 (27/25) "gurobi" "no"
    GurobiOutcome.notOptimal CplexOutcome.infeasible
    (of_decide_eq_true (by with_unfolding_all rfl)) (Or.inl ⟨rfl, rfl⟩)

/-- C10, witness: the theorem applied to the example input with the
CPLEX backend feasible and `wcvar_minimizer = 'yes'`, where the
completed value is the result dict. -/
theorem C10_witness :
    ∃ a r b c, (RPOValue.dict (some 5) 0 (some ["w_0_A", "w_0_B"]) (some [0, 0]))
      = RPOValue.dict a r b c :=
  (C10_result_shape exDict exInstr exBranching exPortfolio exSell exBuy exWeight
    (1/100) (1/100) (1/2) 1 (27/25) "cplex" "yes" GurobiOutcome.notOptimal
    (CplexOutcome.feasible 5 []) _ (by with_unfolding_all rfl)).1
    ⟨rfl, rfl, 5, [], rfl⟩

end RobustPortfolio
